import Mathlib

/-!
Shallow embedding of the day-bucketed inventory tracker core (src/app.py).

Modelling conventions:
- Python floats are modelled as exact rationals.  The fixed-point output
  formatting that the source applies when storing numbers back into CSV cells
  (three or two decimal places) is abstracted away: stored numeric values are
  kept exact.
- CSV rows are modelled as typed records with the columns of HEADERS.
- Python string methods strip/lower/upper and string comparison are modelled
  by kernel-computable list-of-characters functions below; they agree with the
  source on the ASCII data the application handles.
- Each API handler becomes a function from an input and an application state
  to a pair of an Except result and the state after the handler ran.  An
  HTTPException raised before any write_csv call returns the unchanged state,
  which is exactly what raising does in the source because writes are
  performed by explicit write_csv or append_row calls.
- gen_id produces fresh uuid strings; handlers take them as parameters.
- The unbounded fallback loop of _generate_ready_code is given an explicit
  fuel argument counting its iterations; returning none models the loop not
  having terminated within that many iterations.
-/

namespace TBM

/-- ASCII whitespace test used by the strip model. -/
def charWs (c : Char) : Bool := c == ' ' || c == '\t' || c == '\n' || c == '\r'

/-- Model of Python str.strip (kernel-computable). -/
def strTrim (s : String) : String :=
  ⟨((s.data.dropWhile charWs).reverse.dropWhile charWs).reverse⟩

/-- Model of Python str.upper on the ASCII data the app handles. -/
def strUpper (s : String) : String := ⟨s.data.map Char.toUpper⟩

/-- Model of Python str.lower on the ASCII data the app handles. -/
def strLower (s : String) : String := ⟨s.data.map Char.toLower⟩

/-- Code-point comparison of characters. -/
def chLt (a b : Char) : Bool := a.toNat < b.toNat

/-- Lexicographic comparison of character lists, as Python compares strings. -/
def listLe : List Char → List Char → Bool
  | [], _ => true
  | _ :: _, [] => false
  | a :: as, b :: bs => if a == b then listLe as bs else chLt a b

/-- Lexicographic string comparison, as used by sorted() over directory names. -/
def strLe (a b : String) : Bool := listLe a.data b.data

/-- Digits-only parse helper for the order-id scan. -/
def parseDigits (l : List Char) : Option Nat :=
  if l ≠ [] && l.all Char.isDigit then
    some (l.foldl (fun a c => a * 10 + (c.toNat - 48)) 0)
  else none

/-- Model of int(s) as used when scanning order ids (sign plus digits). -/
def parseIntStr (s : String) : Option Int :=
  match s.data with
  | '-' :: ds => (parseDigits ds).map (fun n => -(n : Int))
  | ds => (parseDigits ds).map (fun n => (n : Int))

/-- Replace the first element satisfying p by f applied to it; models an
in-place mutation of the row found by a linear scan before write_csv. -/
def updateFirst (p : α → Bool) (f : α → α) : List α → List α
  | [] => []
  | x :: xs => if p x then f x :: xs else x :: updateFirst p f xs

-- ---- fixed enumerations of app.py ----

def CATEGORIES : List String := ["Home Delivery", "Frozen Products", "SFH"]

def UNITS : List String := ["KG", "GM", "Pieces", "Batch", "Plates", "Portion"]

def SUBCATEGORIES : List String :=
  ["Infrastructure", "Meat and Fish", "Veggies", "Grocery", "Dairy", "Bakery",
   "Kitchen Tool", "Fuel", "Serving Dish", "Operating Supplies", "Packaging"]

def PAYMENT_STATUSES : List String := ["Live", "Due", "Paid"]

def PAYMENT_MODES : List String :=
  ["CurrentUPI", "Cash", "Card", "PersonalUPI", "PersonalCash"]

-- ---- data model (rows of the five tables) ----

structure ReadyProduct where
  id : String
  name : String
  category : String
  item_category : String
  code : String
  unit : String
  unit_cost : ℚ
  price : ℚ
  quantity : ℚ
  threshold : ℚ
deriving DecidableEq, Repr

structure RawItem where
  id : String
  name : String
  category : String
  subcategory : String
  unit : String
  unit_cost : ℚ
  stock : ℚ
  threshold : ℚ
deriving DecidableEq, Repr

structure PurchaseRow where
  id : String
  date : String
  category : String
  subcategory : String
  item : String
  unit : String
  qty : ℚ
  unit_cost : ℚ
  total_cost : ℚ
  notes : String
deriving DecidableEq, Repr

structure SaleRow where
  id : String
  date : String
  category : String
  branch : String
  order_id : String
  item : String
  unit : String
  qty : ℚ
  unit_price : ℚ
  discount : ℚ
  total_price : ℚ
  customer_name : String
  customer_phone : String
  table_no : String
  payment_status : String
  payment_mode : String
  payment_note : String
  notes : String
deriving DecidableEq, Repr

structure Branch where
  id : String
  name : String
  is_active : String
deriving DecidableEq, Repr

/-- The tables of the active day snapshot plus the order-sequence file
(none when conf/order_seq.txt does not exist yet). -/
structure AppState where
  ready : List ReadyProduct
  raw : List RawItem
  purchases : List PurchaseRow
  sales : List SaleRow
  branches : List Branch
  seqFile : Option Int
deriving DecidableEq, Repr

-- ---- convert_qty ----

/-- Model of convert_qty: identity on equal units, the fixed KG to GM rule,
and a ValueError otherwise. -/
def convert_qty (qty : ℚ) (from_unit to_unit : String) : Except String ℚ :=
  if from_unit = to_unit then .ok qty
  else if from_unit = "KG" ∧ to_unit = "GM" then .ok (qty * 1000)
  else if from_unit = "GM" ∧ to_unit = "KG" then .ok (qty / 1000)
  else .error "Unit mismatch"

-- ---- order sequence ----

/-- Model of _scan_max_order_id: best-effort maximum of the parsable
order_id cells of the sales table, starting from 0; rows whose cell fails
to parse are skipped.  An empty cell parses as 0 via the `or 0` default. -/
def _scan_max_order_id (sales : List SaleRow) : Int :=
  sales.foldl
    (fun m r =>
      match (if r.order_id = "" then some 0 else parseIntStr r.order_id) with
      | some v => max m v
      | none => m) 0

/-- Model of next_order_id.  salesMax is the value _scan_max_order_id would
return at call time; file is the content of conf/order_seq.txt, none when the
file does not exist.  Returns the produced id and the file content afterwards
(lazy initialisation writes salesMax even on a peek). -/
def next_order_id (peek : Bool) (salesMax : Int) (file : Option Int) :
    Int × Option Int :=
  let current : Int :=
    match file with
    | none => salesMax
    | some v => v
  let nxt := current + 1
  if peek then (nxt, some current) else (nxt, some nxt)

/-- A sequential run of next_order_id calls (true = peek); returns the list
of (peek flag, returned id) pairs and the final file content. -/
def run_next (salesMax : Int) : List Bool → Option Int → List (Bool × Int) × Option Int
  | [], f => ([], f)
  | b :: bs, f =>
    let r := next_order_id b salesMax f
    let rest := run_next salesMax bs r.2
    ((b, r.1) :: rest.1, rest.2)

/-- The ids returned by the non-peek calls of a run, in order. -/
def nonPeekOuts (l : List (Bool × Int)) : List Int :=
  (l.filter (fun p => p.1 == false)).map Prod.snd

-- ---- code assigner ----

/-- The three-character candidate code built from a digit and two characters. -/
def mkCode3 (d : Nat) (a b : Char) : String := ⟨[Char.ofNat (48 + d), a, b]⟩

/-- Model of (s[:1] or "X").upper(): the uppercased first character of s,
or X when s is empty. -/
def firstCharUpper (s : String) : Char := (s.data.headD 'X').toUpper

/-- The second code letter: first character of the trimmed item_category,
falling back to the trimmed name when the category is empty. -/
def deriveL2 (name item_category : String) : Char :=
  firstCharUpper (if strTrim item_category = "" then strTrim name else strTrim item_category)

/-- The third code letter: first character of the trimmed name. -/
def deriveL3 (name : String) : Char := firstCharUpper (strTrim name)

/-- The uppercased codes already used by the given ready products. -/
def existingCodes (rows : List ReadyProduct) : List String :=
  rows.map (fun r => strUpper r.code)

/-- First phase of _generate_ready_code: try digits 1 to 9 with the fixed
two-letter suffix. -/
def firstNine (l2 l3 : Char) (existing : List String) : Option String :=
  (List.range' 1 9).findSome? fun d =>
    let code := mkCode3 d l2 l3
    if code ∈ existing then none else some code

/-- One iteration of the fallback loop at index idx: digits 1 to 9 with the
letter A shifted by idx mod 26. -/
def fallbackTry (l2 : Char) (existing : List String) (idx : Nat) : Option String :=
  (List.range' 1 9).findSome? fun d =>
    let code := mkCode3 d l2 (Char.ofNat (65 + idx % 26))
    if code ∈ existing then none else some code

/-- The fallback loop, run for at most fuel iterations starting at index idx;
none models the source loop not returning within fuel iterations. -/
def fallbackSearch (l2 : Char) (existing : List String) : Nat → Nat → Option String
  | 0, _ => none
  | Nat.succ fuel, idx =>
    match fallbackTry l2 existing idx with
    | some c => some c
    | none => fallbackSearch l2 existing fuel (idx + 1)

/-- Model of _generate_ready_code with explicit fuel for the unbounded
fallback loop. -/
def _generate_ready_code (name item_category : String) (rows : List ReadyProduct)
    (fuel : Nat) : Option String :=
  match firstNine (deriveL2 name item_category) (deriveL3 name) (existingCodes rows) with
  | some c => some c
  | none => fallbackSearch (deriveL2 name item_category) (existingCodes rows) fuel 0

/-- The regular expression [1-9][A-Z][A-Z] on a three-character string,
anchored at both ends. -/
def matchesCodePattern (s : String) : Bool :=
  match s.data with
  | [c1, c2, c3] =>
    ('1' ≤ c1 && c1 ≤ '9') && ('A' ≤ c2 && c2 ≤ 'Z') && ('A' ≤ c3 && c3 ≤ 'Z')
  | _ => false

/-- The format check of add_ready_product_api and update_ready_product_api:
len(code) == 3 and code[0].isdigit() and code[1:].isalpha(), with the ASCII
meaning of isdigit and isalpha. -/
def codeFormatOk (s : String) : Bool :=
  match s.data with
  | [a, b, c] => a.isDigit && b.isAlpha && c.isAlpha
  | _ => false

-- ---- request models (pydantic classes) ----

structure PurchaseIn where
  date : Option String := none
  category : String
  subcategory : String
  item : String
  unit : String
  qty : ℚ
  unit_cost : ℚ
  notes : Option String := some ""
deriving DecidableEq, Repr

structure PurchaseResp where
  ok : Bool
  id : String
  new_stock : ℚ
  unit : String
deriving DecidableEq, Repr

structure SaleIn where
  date : Option String := none
  category : String
  branch : Option String := some ""
  order_id : Option Int := none
  item : String
  unit : String
  qty : ℚ
  unit_price : Option ℚ := none
  discount : ℚ := 0
  customer_name : Option String := some ""
  customer_phone : Option String := some ""
  table_no : Option String := some ""
  payment_status : String := "Live"
  payment_mode : Option String := some ""
  payment_note : Option String := some ""
  notes : Option String := some ""
deriving DecidableEq, Repr

structure SaleOut where
  id : String
  order_id : Int
  remaining_stock : ℚ
deriving DecidableEq, Repr

structure ReadyProductIn where
  name : String
  category : String
  unit : String
  unit_cost : ℚ := 0
  price : ℚ := 0
  quantity : ℚ := 0
  threshold : ℚ := 0
  item_category : String := ""
  code : String := ""
deriving DecidableEq, Repr

structure ReadyProductUpdate where
  name : Option String := none
  category : Option String := none
  unit : Option String := none
  unit_cost : Option ℚ := none
  price : Option ℚ := none
  quantity : Option ℚ := none
  threshold : Option ℚ := none
  item_category : Option String := none
  code : Option String := none
deriving DecidableEq, Repr

structure BranchIn where
  name : String
  is_active : Bool := true
deriving DecidableEq, Repr

-- ---- purchases ----

/-- The raw-inventory row match of add_purchase_api: name compared after
strip and lower, category and subcategory compared exactly. -/
def matchesPurchase (p : PurchaseIn) (r : RawItem) : Bool :=
  strLower (strTrim r.name) == strLower (strTrim p.item)
    && r.category == p.category && r.subcategory == p.subcategory

/-- Model of add_purchase_api.  freshItemId and freshRowId stand for the two
gen_id() calls (used in that order when a new inventory row is created);
today is today_str().  Validation failures and the conversion ValueError
happen before any write, so they leave the state unchanged. -/
def add_purchase_api (p : PurchaseIn) (freshItemId freshRowId today : String)
    (st : AppState) : Except String PurchaseResp × AppState :=
  if p.category ∉ CATEGORIES then (.error "category must be one of CATEGORIES", st)
  else if p.subcategory ∉ SUBCATEGORIES then
    (.error "subcategory must be one of SUBCATEGORIES", st)
  else if p.unit ∉ UNITS then (.error "unit must be one of UNITS", st)
  else
    let d := p.date.getD today
    let found := st.raw.find? (matchesPurchase p)
    let target : RawItem := found.getD
      { id := freshItemId, name := strTrim p.item, category := p.category,
        subcategory := p.subcategory, unit := p.unit, unit_cost := p.unit_cost,
        stock := 0, threshold := 0 }
    match convert_qty p.qty p.unit target.unit with
    | .error e => (.error e, st)
    | .ok addQty =>
      let stock := target.stock + addQty
      let target2 := { target with stock := stock, unit_cost := p.unit_cost }
      let raw2 :=
        match found with
        | some _ => updateFirst (matchesPurchase p) (fun _ => target2) st.raw
        | none => st.raw ++ [target2]
      let total := p.qty * p.unit_cost
      let prow : PurchaseRow :=
        { id := freshRowId, date := d, category := p.category,
          subcategory := p.subcategory, item := strTrim p.item, unit := p.unit,
          qty := p.qty, unit_cost := p.unit_cost, total_cost := total,
          notes := p.notes.getD "" }
      (.ok { ok := true, id := freshRowId, new_stock := stock, unit := target2.unit },
        { st with raw := raw2, purchases := st.purchases ++ [prow] })

/-- The stock of the raw-inventory row that add_purchase_api would match,
zero when a new row would be created. -/
def purchaseOldStock (p : PurchaseIn) (st : AppState) : ℚ :=
  match st.raw.find? (matchesPurchase p) with
  | some r => r.stock
  | none => 0

/-- The stored unit of the raw-inventory row that add_purchase_api would
match, the purchase unit itself when a new row would be created. -/
def purchaseTargetUnit (p : PurchaseIn) (st : AppState) : String :=
  match st.raw.find? (matchesPurchase p) with
  | some r => r.unit
  | none => p.unit

-- ---- manual stock adjustment ----

/-- The scan of adjust_ready_stock_api over the ready_products rows: the
first row with the given id is adjusted, a negative result raises before
anything is written, and a missing id is a 404. -/
def adjustLoop (item_id : String) (delta : ℚ) :
    List ReadyProduct → Except String (ℚ × List ReadyProduct)
  | [] => .error "Not found"
  | r :: rs =>
    if r.id == item_id then
      let q := r.quantity + delta
      if q < 0 then .error "Resulting stock would be negative"
      else .ok (q, { r with quantity := q } :: rs)
    else
      match adjustLoop item_id delta rs with
      | .error e => .error e
      | .ok (q, rs2) => .ok (q, r :: rs2)

/-- Model of adjust_ready_stock_api. -/
def adjust_ready_stock_api (item_id : String) (delta : ℚ) (st : AppState) :
    Except String ℚ × AppState :=
  match adjustLoop item_id delta st.ready with
  | .error e => (.error e, st)
  | .ok (q, rows2) => (.ok q, { st with ready := rows2 })

-- ---- sales ----

/-- The ready-product match of add_sale_api: name compared after strip and
lower, category compared exactly. -/
def matchesSale (s : SaleIn) (r : ReadyProduct) : Bool :=
  strLower (strTrim r.name) == strLower (strTrim s.item) && r.category == s.category

/-- Model of add_sale_api.  freshId stands for gen_id(); today for
today_str().  All validations (category, product lookup, unit equality,
stock check) precede the ready_products write, which precedes the order-id
resolution and the sales append. -/
def add_sale_api (s : SaleIn) (freshId today : String) (st : AppState) :
    Except String SaleOut × AppState :=
  if s.category ∉ CATEGORIES then (.error "category must be one of CATEGORIES", st)
  else
    match st.ready.find? (matchesSale s) with
    | none => (.error "Ready product not found (match by name & category)", st)
    | some target =>
      if s.unit ≠ target.unit then
        (.error "Sale unit must match product unit", st)
      else
        let price := s.unit_price.getD target.price
        let qty := s.qty
        let discount := if s.discount < 0 then 0 else s.discount
        let d := s.date.getD today
        let current := target.quantity
        if current < qty then (.error "Not enough stock", st)
        else
          let ready2 := updateFirst (matchesSale s)
            (fun r => { r with quantity := current - qty }) st.ready
          let st1 := { st with ready := ready2 }
          let oidFile : Int × Option Int :=
            match s.order_id with
            | some o => (o, st1.seqFile)
            | none => next_order_id false (_scan_max_order_id st1.sales) st1.seqFile
          let subtotal := qty * price
          let total := max 0 (subtotal - discount)
          let row : SaleRow :=
            { id := freshId, date := d, category := s.category,
              branch := s.branch.getD "", order_id := toString oidFile.1,
              item := target.name, unit := s.unit, qty := qty,
              unit_price := price, discount := discount, total_price := total,
              customer_name := s.customer_name.getD "",
              customer_phone := s.customer_phone.getD "",
              table_no := s.table_no.getD "",
              payment_status := if s.payment_status = "" then "Live" else s.payment_status,
              payment_mode := s.payment_mode.getD "",
              payment_note := s.payment_note.getD "",
              notes := s.notes.getD "" }
          (.ok { id := freshId, order_id := oidFile.1, remaining_stock := current - qty },
            { st1 with sales := st1.sales ++ [row], seqFile := oidFile.2 })

-- ---- ready products: add and update ----

/-- Model of add_ready_product_api.  fuel bounds the fallback loop of the
code generator (only reached when no explicit code is supplied); a none from
the generator is surfaced as an error that has no counterpart in the source,
where the loop would simply not have returned yet. -/
def add_ready_product_api (item : ReadyProductIn) (freshId : String) (fuel : Nat)
    (st : AppState) : Except String (String × String) × AppState :=
  if item.category ∉ CATEGORIES then (.error "category must be one of CATEGORIES", st)
  else if item.unit ∉ UNITS then (.error "unit must be one of UNITS", st)
  else
    let rows := st.ready
    let item_category := strTrim item.item_category
    let incoming_code := strUpper (strTrim item.code)
    let codeRes : Except String String :=
      if incoming_code ≠ "" then
        if ¬ (codeFormatOk incoming_code) then
          .error "code must be exactly 3 chars: 1 digit + 2 letters"
        else if rows.any (fun r => strUpper r.code == incoming_code) then
          .error "code already exists"
        else .ok incoming_code
      else
        match _generate_ready_code item.name item_category rows fuel with
        | some c => .ok c
        | none => .error "generator fallback loop still running after fuel iterations"
    match codeRes with
    | .error e => (.error e, st)
    | .ok code =>
      let row : ReadyProduct :=
        { id := freshId, name := strTrim item.name, category := item.category,
          item_category := item_category, code := code, unit := item.unit,
          unit_cost := item.unit_cost, price := item.price,
          quantity := item.quantity, threshold := item.threshold }
      (.ok (freshId, code), { st with ready := rows ++ [row] })

/-- Apply the non-none fields of a patch to a row, with the code value (when
the patch touches it) already normalised by the validation step. -/
def applyReadyPatch (p : ReadyProductUpdate) (code? : Option String)
    (r : ReadyProduct) : ReadyProduct :=
  { r with
    name := p.name.getD r.name,
    category := p.category.getD r.category,
    unit := p.unit.getD r.unit,
    unit_cost := p.unit_cost.getD r.unit_cost,
    price := p.price.getD r.price,
    quantity := p.quantity.getD r.quantity,
    threshold := p.threshold.getD r.threshold,
    item_category := p.item_category.getD r.item_category,
    code := code?.getD r.code }

/-- Model of update_ready_product_api.  Validations (category, unit, code
format, code uniqueness against every other row) all precede the row lookup,
the 404 and the write, exactly as in the source. -/
def update_ready_product_api (item_id : String) (p : ReadyProductUpdate)
    (st : AppState) : Except String Unit × AppState :=
  let rows := st.ready
  let catBad : Bool :=
    match p.category with
    | some c => ¬ (c ∈ CATEGORIES)
    | none => false
  let unitBad : Bool :=
    match p.unit with
    | some u => ¬ (u ∈ UNITS)
    | none => false
  let codeRes : Except String (Option String) :=
    match p.code with
    | none => .ok none
    | some c0 =>
      let raw := strUpper (strTrim c0)
      if raw = "" then .ok (some "")
      else if ¬ (codeFormatOk raw) then
        .error "code must be exactly 3 chars: 1 digit + 2 letters"
      else if rows.any (fun r => r.id != item_id && strUpper r.code == raw) then
        .error "code already exists"
      else .ok (some raw)
  if catBad then (.error "category must be one of CATEGORIES", st)
  else if unitBad then (.error "unit must be one of UNITS", st)
  else
    match codeRes with
    | .error e => (.error e, st)
    | .ok code? =>
      if rows.any (fun r => r.id == item_id) then
        (.ok (), { st with ready := updateFirst (fun r => r.id == item_id)
                                      (applyReadyPatch p code?) rows })
      else (.error "Not found", st)

-- ---- branches ----

/-- Model of add_branch: a case-insensitive (after strip) name match returns
the existing id without appending; otherwise a new row is appended. -/
def add_branch (b : BranchIn) (freshId : String) (st : AppState) :
    Except String String × AppState :=
  match st.branches.find?
      (fun r => strLower (strTrim r.name) == strLower (strTrim b.name)) with
  | some r => (.ok r.id, st)
  | none =>
    let row : Branch := { id := freshId, name := strTrim b.name,
                          is_active := if b.is_active then "1" else "0" }
    (.ok freshId, { st with branches := st.branches ++ [row] })

-- ---- day snapshot manager ----

/-- A CSV file as its list of records, the header first. -/
abbrev CsvFile := List (List String)

/-- A day directory: table name to file content. -/
abbrev Dir := List (String × CsvFile)

/-- The data root: day name (ISO date string) to directory. -/
abbrev DataRoot := List (String × Dir)

/-- The HEADERS dict of app.py in its insertion order. -/
def HEADERS : List (String × List String) :=
  [("ready_products",
    ["id", "name", "category", "item_category", "code",
     "unit", "unit_cost", "price", "quantity", "threshold"]),
   ("raw_inventory",
    ["id", "name", "category", "subcategory", "unit",
     "unit_cost", "stock", "threshold"]),
   ("purchases",
    ["id", "date", "category", "subcategory", "item",
     "unit", "qty", "unit_cost", "total_cost", "notes"]),
   ("sales",
    ["id", "date", "category", "branch", "order_id", "item", "unit", "qty",
     "unit_price", "discount", "total_price", "customer_name", "customer_phone",
     "table_no", "payment_status", "payment_mode", "payment_note", "notes"]),
   ("branches", ["id", "name", "is_active"])]

/-- Model of _init_csvs: create every table file that is missing with its
header row only; existing files are left untouched. -/
def _init_csvs (d : Dir) : Dir :=
  HEADERS.foldl
    (fun acc kv => if acc.any (fun f => f.1 == kv.1) then acc else acc ++ [(kv.1, [kv.2])])
    d

/-- Model of _latest_existing_day_dir: the directory whose name is the
lexicographic maximum, i.e. the last element after sorted(). -/
def _latest_existing_day_dir (root : DataRoot) : Option (String × Dir) :=
  root.foldl
    (fun acc d =>
      match acc with
      | none => some d
      | some a => if strLe a.1 d.1 then some d else some a)
    none

/-- Model of get_today_dir: return the existing directory for today after
ensuring all table files exist, or create it, copying the whole latest
existing directory first when there is one. -/
def get_today_dir (today : String) (root : DataRoot) : DataRoot × Dir :=
  match root.find? (fun d => d.1 == today) with
  | some d =>
    let d2 := _init_csvs d.2
    (updateFirst (fun e => e.1 == today) (fun e => (e.1, d2)) root, d2)
  | none =>
    let base : Dir :=
      match _latest_existing_day_dir root with
      | some latest => if latest.1 ≠ today then latest.2 else []
      | none => []
    let d2 := _init_csvs base
    (root ++ [(today, d2)], d2)

-- ---- general helper lemmas ----

theorem char_toNat_inj {a b : Char} (h : a.toNat = b.toNat) : a = b :=
  Char.ext (UInt32.ext h)

theorem chLt_asymm_ne {a b : Char} (h : chLt a b = true) : (a == b) = false := by
  have hlt : a.toNat < b.toNat := by simpa [chLt] using h
  have : a ≠ b := fun he => absurd (he ▸ hlt) (lt_irrefl _)
  simpa using this

theorem listLe_total : ∀ as bs : List Char, listLe as bs = true ∨ listLe bs as = true := by
  intro as
  induction as with
  | nil => intro bs; left; rfl
  | cons a as ih =>
    intro bs
    cases bs with
    | nil => right; rfl
    | cons b bs =>
      by_cases hab : a = b
      · subst hab
        rcases ih bs with h | h
        · left; simpa [listLe] using h
        · right; simpa [listLe] using h
      · have hne : a.toNat ≠ b.toNat := fun h => hab (char_toNat_inj h)
        have hbeq : (a == b) = false := by simpa using hab
        have hbeq2 : (b == a) = false := by simpa using (Ne.symm hab)
        rcases Nat.lt_or_ge a.toNat b.toNat with h | h
        · left; simp [listLe, hbeq, chLt, h]
        · right
          have : b.toNat < a.toNat := lt_of_le_of_ne h (Ne.symm hne)
          simp [listLe, hbeq2, chLt, this]

theorem listLe_trans : ∀ as bs cs : List Char,
    listLe as bs = true → listLe bs cs = true → listLe as cs = true := by
  intro as
  induction as with
  | nil => intro bs cs _ _; rfl
  | cons a as ih =>
    intro bs cs h1 h2
    cases bs with
    | nil => simp [listLe] at h1
    | cons b bs =>
      cases cs with
      | nil => simp [listLe] at h2
      | cons c cs =>
        by_cases hab : a = b
        · subst hab
          by_cases hbc : a = c
          · subst hbc
            have t1 : listLe as bs = true := by simpa [listLe] using h1
            have t2 : listLe bs cs = true := by simpa [listLe] using h2
            simpa [listLe] using ih bs cs t1 t2
          · have hbeq : (a == c) = false := by simpa using hbc
            have t2 : chLt a c = true := by simpa [listLe, hbeq] using h2
            simp [listLe, hbeq, t2]
        · have hbeq : (a == b) = false := by simpa using hab
          have t1 : chLt a b = true := by simpa [listLe, hbeq] using h1
          by_cases hbc : b = c
          · subst hbc
            have hbeq2 : (a == b) = false := by simpa using hab
            simp [listLe, hbeq2, t1]
          · have hbeq2 : (b == c) = false := by simpa using hbc
            have t2 : chLt b c = true := by simpa [listLe, hbeq2] using h2
            have t3 : chLt a c = true := by
              have l1 : a.toNat < b.toNat := by simpa [chLt] using t1
              have l2 : b.toNat < c.toNat := by simpa [chLt] using t2
              simp [chLt, Nat.lt_trans l1 l2]
            simp [listLe, chLt_asymm_ne t3, t3]

theorem strLe_total (a b : String) : strLe a b = true ∨ strLe b a = true :=
  listLe_total a.data b.data

theorem strLe_trans {a b c : String} (h1 : strLe a b = true) (h2 : strLe b c = true) :
    strLe a c = true :=
  listLe_trans a.data b.data c.data h1 h2

theorem strLe_refl (a : String) : strLe a a = true := by
  rcases strLe_total a a with h | h <;> exact h

theorem updateFirst_mem {p : α → Bool} {f : α → α} :
    ∀ {l : List α} {a : α}, l.find? p = some a → f a ∈ updateFirst p f l := by
  intro l
  induction l with
  | nil => intro a h; simp [List.find?] at h
  | cons x xs ih =>
    intro a h
    by_cases hx : p x = true
    · rw [List.find?_cons_of_pos _ hx] at h
      cases h
      simp [updateFirst, hx]
    · rw [List.find?_cons_of_neg _ (by simpa using hx)] at h
      have := ih h
      simp [updateFirst, hx, this]

-- ---- C10 ----

/-- C10: when an existing branch row matches the requested name after strip,
case-insensitively, add_branch returns ok with that row's id and the state,
in particular the branches table, is unchanged: no duplicate row is appended,
so adding the same branch name twice is idempotent. -/
theorem add_branch_idempotent (b : BranchIn) (freshId : String) (st : AppState)
    (r : Branch)
    (h : st.branches.find?
        (fun r => strLower (strTrim r.name) == strLower (strTrim b.name)) = some r) :
    add_branch b freshId st = (.ok r.id, st) := by
  unfold add_branch
  rw [h]

/-- Witness for C10 at a concrete state. -/
theorem add_branch_idempotent_witness :
    add_branch { name := " MAIN " } "b2"
        { ready := [], raw := [], purchases := [], sales := [],
          branches := [{ id := "b1", name := "Main", is_active := "1" }],
          seqFile := none }
      = (.ok "b1",
        { ready := [], raw := [], purchases := [], sales := [],
          branches := [{ id := "b1", name := "Main", is_active := "1" }],
          seqFile := none }) :=
  add_branch_idempotent { name := " MAIN " } "b2"
    { ready := [], raw := [], purchases := [], sales := [],
      branches := [{ id := "b1", name := "Main", is_active := "1" }],
      seqFile := none }
    { id := "b1", name := "Main", is_active := "1" } (by decide)

-- ---- C5 ----

theorem next_order_id_none (b : Bool) (m : Int) :
    next_order_id b m none = next_order_id b m (some m) := by
  cases b <;> rfl

theorem run_next_mono : ∀ (bs : List Bool) (m v : Int),
    ∃ w, (run_next m bs (some v)).2 = some w ∧ v ≤ w := by
  intro bs
  induction bs with
  | nil => intro m v; exact ⟨v, rfl, le_refl v⟩
  | cons b bs ih =>
    intro m v
    cases b with
    | true =>
      obtain ⟨w, hw, hle⟩ := ih m v
      exact ⟨w, by simpa [run_next, next_order_id] using hw, hle⟩
    | false =>
      obtain ⟨w, hw, hle⟩ := ih m (v + 1)
      refine ⟨w, by simpa [run_next, next_order_id] using hw, ?_⟩
      omega

theorem nonPeekOuts_lb : ∀ (bs : List Bool) (m v x : Int),
    x ∈ nonPeekOuts (run_next m bs (some v)).1 → v < x := by
  intro bs
  induction bs with
  | nil => intro m v x hx; simp [run_next, nonPeekOuts] at hx
  | cons b bs ih =>
    intro m v x hx
    cases b with
    | true =>
      have : x ∈ nonPeekOuts (run_next m bs (some v)).1 := by
        simpa [run_next, next_order_id, nonPeekOuts] using hx
      exact ih m v x this
    | false =>
      have : x = v + 1 ∨ x ∈ nonPeekOuts (run_next m bs (some (v + 1))).1 := by
        simpa [run_next, next_order_id, nonPeekOuts] using hx
      rcases this with rfl | hmem
      · omega
      · have := ih m (v + 1) x hmem
        omega

theorem nonPeekOuts_pairwise : ∀ (bs : List Bool) (m v : Int),
    (nonPeekOuts (run_next m bs (some v)).1).Pairwise (· < ·) := by
  intro bs
  induction bs with
  | nil => intro m v; simp [run_next, nonPeekOuts]
  | cons b bs ih =>
    intro m v
    cases b with
    | true =>
      have := ih m v
      simpa [run_next, next_order_id, nonPeekOuts] using this
    | false =>
      have hrest := ih m (v + 1)
      have hsplit : nonPeekOuts (run_next m (false :: bs) (some v)).1
          = (v + 1) :: nonPeekOuts (run_next m bs (some (v + 1))).1 := by
        simp [run_next, next_order_id, nonPeekOuts, List.filter]
      rw [hsplit]
      exact List.pairwise_cons.mpr
        ⟨fun x hx => nonPeekOuts_lb bs m (v + 1) x hx, hrest⟩

theorem run_next_peeks (m : Int) : ∀ (n : Nat) (f : Option Int),
    (run_next m (List.replicate n true) f).1.map Prod.snd
        = List.replicate n (f.getD m + 1)
    ∧ (n ≠ 0 → (run_next m (List.replicate n true) f).2 = some (f.getD m)) := by
  intro n
  induction n with
  | zero => intro f; exact ⟨rfl, fun h => absurd rfl h⟩
  | succ n ih =>
    intro f
    have hstep : next_order_id true m f = (f.getD m + 1, some (f.getD m)) := by
      cases f <;> rfl
    have ihs := ih (some (f.getD m))
    constructor
    · simp only [List.replicate, run_next, hstep, List.map]
      rw [ihs.1]
      simp
    · intro _
      cases n with
      | zero => simp [List.replicate, run_next, hstep]
      | succ k =>
        simp only [List.replicate, run_next, hstep]
        have := ihs.2 (by omega)
        simpa using this

/-- C5: for the sequence generator, (a) a run of peek calls returns the same
value current+1 every time and only performs the one-time lazy file
initialisation; (b) a non-peek call from persisted value v returns v+1 and
persists v+1; (c) across any sequential run the persisted value never
decreases; (d) the values returned by the non-peek calls of any run are
strictly increasing, so no two non-peek calls return the same value. -/
theorem next_order_id_spec (m : Int) :
    (∀ (n : Nat) (f : Option Int),
        (run_next m (List.replicate n true) f).1.map Prod.snd
            = List.replicate n (f.getD m + 1)
        ∧ (n ≠ 0 → (run_next m (List.replicate n true) f).2 = some (f.getD m)))
    ∧ (∀ v : Int, next_order_id false m (some v) = (v + 1, some (v + 1)))
    ∧ (∀ (bs : List Bool) (v : Int),
        ∃ w, (run_next m bs (some v)).2 = some w ∧ v ≤ w)
    ∧ (∀ (bs : List Bool) (f : Option Int),
        (nonPeekOuts (run_next m bs f).1).Pairwise (· < ·)) := by
  refine ⟨run_next_peeks m, fun v => rfl, fun bs v => run_next_mono bs m v, ?_⟩
  intro bs f
  cases f with
  | some v => exact nonPeekOuts_pairwise bs m v
  | none =>
    cases bs with
    | nil => simp [run_next, nonPeekOuts]
    | cons b bs =>
      have : run_next m (b :: bs) none = run_next m (b :: bs) (some m) := by
        simp only [run_next, next_order_id_none]
      rw [this]
      exact nonPeekOuts_pairwise (b :: bs) m m

/-- Witness for C5 at concrete runs. -/
theorem next_order_id_spec_witness :
    (run_next 4 (List.replicate 2 true) none).1.map Prod.snd = [5, 5]
    ∧ (run_next 4 (List.replicate 2 true) none).2 = some 4
    ∧ next_order_id false 4 (some 4) = (5, some 5)
    ∧ (nonPeekOuts (run_next 4 [false, true, false] (some 0)).1).Pairwise (· < ·) := by
  obtain ⟨h1, h2, h3, h4⟩ := next_order_id_spec 4
  refine ⟨?_, ?_, h2 4, h4 [false, true, false] (some 0)⟩
  · rw [(h1 2 none).1]; decide
  · rw [(h1 2 none).2 (by decide)]; rfl

-- ---- C6 / C9 helper lemmas ----

theorem firstNine_some {l2 l3 : Char} {ex : List String} {c : String}
    (h : firstNine l2 l3 ex = some c) :
    ∃ d, 1 ≤ d ∧ d ≤ 9 ∧ c = mkCode3 d l2 l3 ∧ c ∉ ex := by
  obtain ⟨d, hd, hsome⟩ := List.exists_of_findSome?_eq_some h
  have hd2 := List.mem_range'_1.mp hd
  by_cases hmem : mkCode3 d l2 l3 ∈ ex
  · simp [hmem] at hsome
  · refine ⟨d, hd2.1, by omega, ?_, ?_⟩
    · have : some (mkCode3 d l2 l3) = some c := by simpa [hmem] using hsome
      exact (Option.some.injEq _ _ ▸ this).symm
    · have : some (mkCode3 d l2 l3) = some c := by simpa [hmem] using hsome
      cases this
      exact hmem

theorem fallbackTry_some {l2 : Char} {ex : List String} {idx : Nat} {c : String}
    (h : fallbackTry l2 ex idx = some c) :
    ∃ d, 1 ≤ d ∧ d ≤ 9 ∧ c = mkCode3 d l2 (Char.ofNat (65 + idx % 26)) ∧ c ∉ ex := by
  obtain ⟨d, hd, hsome⟩ := List.exists_of_findSome?_eq_some h
  have hd2 := List.mem_range'_1.mp hd
  by_cases hmem : mkCode3 d l2 (Char.ofNat (65 + idx % 26)) ∈ ex
  · simp [hmem] at hsome
  · have heq : some (mkCode3 d l2 (Char.ofNat (65 + idx % 26))) = some c := by
      simpa [hmem] using hsome
    cases heq
    exact ⟨d, hd2.1, by omega, rfl, hmem⟩

theorem fallbackTry_none {l2 : Char} {ex : List String} {idx : Nat}
    (h : fallbackTry l2 ex idx = none) :
    ∀ d, 1 ≤ d → d ≤ 9 → mkCode3 d l2 (Char.ofNat (65 + idx % 26)) ∈ ex := by
  unfold fallbackTry at h
  intro d h1 h9
  have hmem : d ∈ List.range' 1 9 := List.mem_range'_1.mpr ⟨h1, by omega⟩
  have := (List.findSome?_eq_none_iff.mp h) d hmem
  by_cases hc : mkCode3 d l2 (Char.ofNat (65 + idx % 26)) ∈ ex
  · exact hc
  · simp [hc] at this

theorem fallbackSearch_some : ∀ (fuel idx : Nat) {l2 : Char} {ex : List String} {c : String},
    fallbackSearch l2 ex fuel idx = some c →
    ∃ j d, 1 ≤ d ∧ d ≤ 9 ∧ c = mkCode3 d l2 (Char.ofNat (65 + j % 26)) ∧ c ∉ ex := by
  intro fuel
  induction fuel with
  | zero => intro idx l2 ex c h; simp [fallbackSearch] at h
  | succ n ih =>
    intro idx l2 ex c h
    unfold fallbackSearch at h
    cases htry : fallbackTry l2 ex idx with
    | some c2 =>
      rw [htry] at h
      cases h
      obtain ⟨d, h1, h9, hc, hmem⟩ := fallbackTry_some htry
      exact ⟨idx, d, h1, h9, hc, hmem⟩
    | none =>
      rw [htry] at h
      exact ih (idx + 1) h

theorem fallbackSearch_none : ∀ (fuel idx : Nat) {l2 : Char} {ex : List String},
    fallbackSearch l2 ex fuel idx = none →
    ∀ k, k < fuel → fallbackTry l2 ex (idx + k) = none := by
  intro fuel
  induction fuel with
  | zero => intro idx l2 ex _ k hk; omega
  | succ n ih =>
    intro idx l2 ex h k hk
    unfold fallbackSearch at h
    cases htry : fallbackTry l2 ex idx with
    | some c2 => rw [htry] at h; cases h
    | none =>
      rw [htry] at h
      cases k with
      | zero => simpa using htry
      | succ k2 =>
        have := ih (idx + 1) h k2 (by omega)
        simpa [Nat.add_assoc, Nat.add_comm 1 k2] using this

theorem digit_char_bounds {d : Nat} (h1 : 1 ≤ d) (h9 : d ≤ 9) :
    '1' ≤ Char.ofNat (48 + d) ∧ Char.ofNat (48 + d) ≤ '9' := by
  interval_cases d <;> exact ⟨by decide, by decide⟩

theorem extra_char_bounds (idx : Nat) :
    'A' ≤ Char.ofNat (65 + idx % 26) ∧ Char.ofNat (65 + idx % 26) ≤ 'Z' := by
  have h : idx % 26 < 26 := Nat.mod_lt _ (by omega)
  set j := idx % 26 with hj
  interval_cases j <;> exact ⟨by decide, by decide⟩

theorem matchesCodePattern_mkCode3 {d : Nat} (h1 : 1 ≤ d) (h9 : d ≤ 9) {a b : Char}
    (ha : 'A' ≤ a ∧ a ≤ 'Z') (hb : 'A' ≤ b ∧ b ≤ 'Z') :
    matchesCodePattern (mkCode3 d a b) = true := by
  have hd := digit_char_bounds h1 h9
  simp [matchesCodePattern, mkCode3, hd.1, hd.2, ha.1, ha.2, hb.1, hb.2]

-- ---- C6 ----

/-- C6, amended: a generated code is never among the uppercased codes already
in use, and always consists of a digit 1 to 9 followed by two characters; it
matches [1-9][A-Z][A-Z] whenever the two derived letters are themselves
uppercase ASCII letters (which the source does not guarantee: they are
whatever uppercased first characters name and item_category have). -/
theorem generate_ready_code_spec (name item_category : String)
    (rows : List ReadyProduct) (fuel : Nat) (c : String)
    (h : _generate_ready_code name item_category rows fuel = some c) :
    c ∉ existingCodes rows
    ∧ (∃ d a b, 1 ≤ d ∧ d ≤ 9 ∧ c = mkCode3 d a b)
    ∧ (('A' ≤ deriveL2 name item_category ∧ deriveL2 name item_category ≤ 'Z') →
        ('A' ≤ deriveL3 name ∧ deriveL3 name ≤ 'Z') →
        matchesCodePattern c = true) := by
  unfold _generate_ready_code at h
  cases hfn : firstNine (deriveL2 name item_category) (deriveL3 name)
      (existingCodes rows) with
  | some c2 =>
    rw [hfn] at h
    cases h
    obtain ⟨d, h1, h9, hc, hmem⟩ := firstNine_some hfn
    subst hc
    exact ⟨hmem, ⟨d, _, _, h1, h9, rfl⟩,
      fun ha hb => matchesCodePattern_mkCode3 h1 h9 ha hb⟩
  | none =>
    rw [hfn] at h
    obtain ⟨j, d, h1, h9, hc, hmem⟩ := fallbackSearch_some fuel 0 h
    subst hc
    exact ⟨hmem, ⟨d, _, _, h1, h9, rfl⟩,
      fun ha _ => matchesCodePattern_mkCode3 h1 h9 ha (extra_char_bounds j)⟩

/-- C6 counterexample: for a name starting with a digit the generated code
does not match [1-9][A-Z][A-Z], refuting the claim as stated. -/
theorem generate_ready_code_counterexample :
    _generate_ready_code "42" "" [] 1 = some "144"
    ∧ matchesCodePattern "144" = false := by
  exact ⟨by decide, by decide⟩

/-- Witness for C6 at a concrete input whose derived letters are letters. -/
theorem generate_ready_code_spec_witness :
    ("1HB" ∉ existingCodes []) ∧ matchesCodePattern "1HB" = true := by
  obtain ⟨h1, _, h3⟩ := generate_ready_code_spec "Burger" "Home" [] 1 "1HB" (by decide)
  exact ⟨h1, h3 (by decide) (by decide)⟩

-- ---- C9 ----

/-- C9, amended: the generator terminates whenever at least one of the 9 * 26
fallback candidates (digit 1 to 9, the derived second letter, any letter A to
Z) is not already in use; 26 fallback iterations then always suffice.  The
claim's reason is wrong: the candidate space does not grow with the index,
it cycles with period 26. -/
theorem generate_ready_code_terminates (name item_category : String)
    (rows : List ReadyProduct)
    (h : ∃ d j, 1 ≤ d ∧ d ≤ 9 ∧ j < 26
        ∧ mkCode3 d (deriveL2 name item_category) (Char.ofNat (65 + j))
            ∉ existingCodes rows) :
    ∃ c, _generate_ready_code name item_category rows 26 = some c := by
  unfold _generate_ready_code
  cases hfn : firstNine (deriveL2 name item_category) (deriveL3 name)
      (existingCodes rows) with
  | some c2 => exact ⟨c2, rfl⟩
  | none =>
    cases hfb : fallbackSearch (deriveL2 name item_category) (existingCodes rows) 26 0 with
    | some c2 => exact ⟨c2, rfl⟩
    | none =>
      exfalso
      obtain ⟨d, j, h1, h9, hj, hmem⟩ := h
      have htry := fallbackSearch_none 26 0 hfb j hj
      have := fallbackTry_none htry d h1 h9
      rw [Nat.zero_add, Nat.mod_eq_of_lt hj] at this
      exact hmem this

/-- Witness for C9 at a concrete input. -/
theorem generate_ready_code_terminates_witness :
    (_generate_ready_code "Burger" "Home" [] 26).isSome = true := by
  obtain ⟨c, hc⟩ := generate_ready_code_terminates "Burger" "Home" []
    ⟨1, 0, by decide, by decide, by decide, by decide⟩
  rw [hc]
  rfl

/-- All 9 * 26 codes digit, C, letter: with all of them in use the fallback
loop of the source never returns. -/
def allCCodes : List String :=
  (List.range' 1 9).flatMap fun d =>
    (List.range 26).map fun i => mkCode3 d 'C' (Char.ofNat (65 + i))

/-- Ready products occupying every code the generator would try for a name
and item_category both starting with C. -/
def rowsAllC : List ReadyProduct :=
  allCCodes.map fun c =>
    { id := "", name := "", category := "", item_category := "", code := c,
      unit := "", unit_cost := 0, price := 0, quantity := 0, threshold := 0 }

theorem strUpper_fix_allC : ∀ d < 10, ∀ j < 26,
    strUpper (mkCode3 d 'C' (Char.ofNat (65 + j))) = mkCode3 d 'C' (Char.ofNat (65 + j)) := by
  decide

theorem mem_existing_rowsAllC {d j : Nat} (h1 : 1 ≤ d) (h9 : d ≤ 9) (hj : j < 26) :
    mkCode3 d 'C' (Char.ofNat (65 + j)) ∈ existingCodes rowsAllC := by
  have hmemall : mkCode3 d 'C' (Char.ofNat (65 + j)) ∈ allCCodes := by
    unfold allCCodes
    rw [List.mem_flatMap]
    refine ⟨d, List.mem_range'_1.mpr ⟨h1, by omega⟩, ?_⟩
    rw [List.mem_map]
    exact ⟨j, List.mem_range.mpr hj, rfl⟩
  unfold existingCodes rowsAllC
  rw [List.map_map, List.mem_map]
  refine ⟨mkCode3 d 'C' (Char.ofNat (65 + j)), hmemall, ?_⟩
  exact strUpper_fix_allC d (by omega) j hj

theorem fallbackTry_rowsAllC_none (idx : Nat) :
    fallbackTry 'C' (existingCodes rowsAllC) idx = none := by
  unfold fallbackTry
  rw [List.findSome?_eq_none_iff]
  intro d hd
  have hd2 := List.mem_range'_1.mp hd
  have := mem_existing_rowsAllC hd2.1 (by omega) (Nat.mod_lt idx (by omega))
  simp only [this, if_true]

theorem fallbackSearch_rowsAllC_none :
    ∀ fuel idx, fallbackSearch 'C' (existingCodes rowsAllC) fuel idx = none := by
  intro fuel
  induction fuel with
  | zero => intro idx; rfl
  | succ n ih =>
    intro idx
    unfold fallbackSearch
    rw [fallbackTry_rowsAllC_none idx]
    exact ih (idx + 1)

theorem generate_rowsAllC_none (fuel : Nat) :
    _generate_ready_code "C" "C" rowsAllC fuel = none := by
  unfold _generate_ready_code
  have hl2 : deriveL2 "C" "C" = 'C' := by decide
  have hl3 : deriveL3 "C" = 'C' := by decide
  rw [hl2, hl3]
  have hfn : firstNine 'C' 'C' (existingCodes rowsAllC) = none := by
    unfold firstNine
    rw [List.findSome?_eq_none_iff]
    intro d hd
    have hd2 := List.mem_range'_1.mp hd
    have hC : ('C' : Char) = Char.ofNat (65 + 2) := by decide
    have := mem_existing_rowsAllC hd2.1 (by omega) (show 2 < 26 by omega)
    rw [← hC] at this
    simp only [this, if_true]
  rw [hfn]
  exact fallbackSearch_rowsAllC_none fuel 0

/-- C9 counterexample: with every candidate code of the cycling fallback space
in use, the generator returns no code at any fuel, i.e. the source loop runs
forever; this refutes termination for every finite set of existing codes. -/
theorem generate_ready_code_nontermination :
    ¬ ∃ fuel c, _generate_ready_code "C" "C" rowsAllC fuel = some c := by
  rintro ⟨fuel, c, h⟩
  rw [generate_rowsAllC_none fuel] at h
  cases h


-- ---- C7 ----

/-- C7, amended: an explicit code is rejected with a client error exactly when
it fails the source format check, which is weaker than [1-9][A-Z][A-Z]: it
requires exactly three characters, one digit (0 included) then two alphabetic
characters, or when it duplicates, case-insensitively, a code already present
on another ready product; a code passing both checks is accepted and stored
uppercased.  The same holds for update_ready_product_api.  In particular 0AB
is accepted although it does not match [1-9][A-Z][A-Z]. -/
theorem explicit_code_validation :
    (∀ (item : ReadyProductIn) (freshId : String) (fuel : Nat) (st : AppState),
      item.category ∈ CATEGORIES → item.unit ∈ UNITS →
      strUpper (strTrim item.code) ≠ "" →
      ((codeFormatOk (strUpper (strTrim item.code)) = false
          ∨ st.ready.any (fun r => strUpper r.code == strUpper (strTrim item.code)) = true) →
        ∃ e, add_ready_product_api item freshId fuel st = (.error e, st))
      ∧ (codeFormatOk (strUpper (strTrim item.code)) = true →
        st.ready.any (fun r => strUpper r.code == strUpper (strTrim item.code)) = false →
        ∃ row, add_ready_product_api item freshId fuel st
            = (.ok (freshId, strUpper (strTrim item.code)),
              { st with ready := st.ready ++ [row] })
          ∧ row.code = strUpper (strTrim item.code)))
    ∧ (∀ (item_id : String) (p : ReadyProductUpdate) (st : AppState) (c0 : String),
      p.code = some c0 → strUpper (strTrim c0) ≠ "" →
      (∀ c, p.category = some c → c ∈ CATEGORIES) →
      (∀ u, p.unit = some u → u ∈ UNITS) →
      ((codeFormatOk (strUpper (strTrim c0)) = false
          ∨ st.ready.any
              (fun r => r.id != item_id && strUpper r.code == strUpper (strTrim c0)) = true) →
        ∃ e, update_ready_product_api item_id p st = (.error e, st))
      ∧ (codeFormatOk (strUpper (strTrim c0)) = true →
        st.ready.any
            (fun r => r.id != item_id && strUpper r.code == strUpper (strTrim c0)) = false →
        st.ready.any (fun r => r.id == item_id) = true →
        update_ready_product_api item_id p st
          = (.ok (), { st with ready := (updateFirst (fun r => r.id == item_id)
                (applyReadyPatch p (some (strUpper (strTrim c0)))) st.ready) }))) := by
  constructor
  · intro item freshId fuel st hcat hunit hne
    constructor
    · intro hbad
      cases hfmt : codeFormatOk (strUpper (strTrim item.code)) with
      | false =>
        exact ⟨"code must be exactly 3 chars: 1 digit + 2 letters",
          by simp [add_ready_product_api, hcat, hunit, hne, hfmt]⟩
      | true =>
        have hdup : (st.ready.any
            (fun r => strUpper r.code == strUpper (strTrim item.code))) = true := by
          rcases hbad with h | h
          · rw [hfmt] at h; cases h
          · exact h
        have hdup2 : ∃ r ∈ st.ready, strUpper r.code = strUpper (strTrim item.code) := by
          simpa using hdup
        exact ⟨"code already exists",
          by simp [add_ready_product_api, hcat, hunit, hne, hfmt, hdup2]⟩
    · intro hfmt hdup
      have hdup2 : ¬ ∃ r ∈ st.ready, strUpper r.code = strUpper (strTrim item.code) := by
        push_neg
        simpa using hdup
      refine ⟨{ id := freshId, name := strTrim item.name, category := item.category,
                item_category := strTrim item.item_category,
                code := strUpper (strTrim item.code), unit := item.unit,
                unit_cost := item.unit_cost, price := item.price,
                quantity := item.quantity, threshold := item.threshold }, ?_, rfl⟩
      simp [add_ready_product_api, hcat, hunit, hne, hfmt, hdup2]
  · intro item_id p st c0 hc0 hne hcat hunit
    have hcatb : (match p.category with
        | some c => !(decide (c ∈ CATEGORIES))
        | none => false) = false := by
      cases hpc : p.category with
      | none => rfl
      | some c => simp [hcat c hpc]
    have hunitb : (match p.unit with
        | some u => !(decide (u ∈ UNITS))
        | none => false) = false := by
      cases hpu : p.unit with
      | none => rfl
      | some u => simp [hunit u hpu]
    constructor
    · intro hbad
      cases hfmt : codeFormatOk (strUpper (strTrim c0)) with
      | false =>
        exact ⟨"code must be exactly 3 chars: 1 digit + 2 letters",
          by simp [update_ready_product_api, hc0, hne, hfmt, hcatb, hunitb]⟩
      | true =>
        have hdup : (st.ready.any
            (fun r => r.id != item_id && strUpper r.code == strUpper (strTrim c0))) = true := by
          rcases hbad with h | h
          · rw [hfmt] at h; cases h
          · exact h
        have hdup2 : ∃ r ∈ st.ready, ¬ r.id = item_id ∧ strUpper r.code = strUpper (strTrim c0) := by
          simpa using hdup
        exact ⟨"code already exists",
          by simp [update_ready_product_api, hc0, hne, hfmt, hdup2, hcatb, hunitb]⟩
    · intro hfmt hdup hfound
      have hdup2 : ¬ ∃ r ∈ st.ready, ¬ r.id = item_id ∧ strUpper r.code = strUpper (strTrim c0) := by
        push_neg
        simpa using hdup
      have hfound2 : ∃ r ∈ st.ready, r.id = item_id := by simpa using hfound
      simp [update_ready_product_api, hc0, hne, hfmt, hdup2, hfound2, hcatb, hunitb]

/-- C7 counterexample: the explicit code 0AB does not match [1-9][A-Z][A-Z]
because its digit is 0, yet add_ready_product_api accepts and stores it. -/
theorem explicit_code_counterexample :
    matchesCodePattern "0AB" = false
    ∧ (add_ready_product_api
        { name := "x", category := "Home Delivery", unit := "KG", code := "0AB" }
        "id1" 0 { ready := [], raw := [], purchases := [], sales := [],
                  branches := [], seqFile := none }).1.toOption = some ("id1", "0AB")
    ∧ ((add_ready_product_api
        { name := "x", category := "Home Delivery", unit := "KG", code := "0AB" }
        "id1" 0 { ready := [], raw := [], purchases := [], sales := [],
                  branches := [], seqFile := none }).2.ready.map
          (fun r => r.code)) = ["0AB"] := by
  refine ⟨by decide, by decide, by decide⟩

/-- Witness for C7: a well-formed unused explicit code is accepted, a
duplicate of an existing code is rejected. -/
theorem explicit_code_validation_witness :
    (add_ready_product_api
        { name := "x", category := "Home Delivery", unit := "KG", code := "1AB" }
        "id1" 0 { ready := [], raw := [], purchases := [], sales := [],
                  branches := [], seqFile := none }).1.toOption = some ("id1", "1AB")
    ∧ (add_ready_product_api
        { name := "y", category := "Home Delivery", unit := "KG", code := "1ab" }
        "id2" 0 { ready := [{ id := "id1", name := "x", category := "Home Delivery",
                              item_category := "", code := "1AB", unit := "KG",
                              unit_cost := 0, price := 0, quantity := 0, threshold := 0 }],
                  raw := [], purchases := [], sales := [],
                  branches := [], seqFile := none }).1.toOption = none := by
  obtain ⟨hadd, _⟩ := explicit_code_validation
  constructor
  · obtain ⟨row, heq, _⟩ := (hadd
      { name := "x", category := "Home Delivery", unit := "KG", code := "1AB" }
      "id1" 0 { ready := [], raw := [], purchases := [], sales := [],
                branches := [], seqFile := none }
      (by decide) (by decide) (by decide)).2 (by decide) (by decide)
    rw [heq]
    rfl
  · obtain ⟨e, heq⟩ := (hadd
      { name := "y", category := "Home Delivery", unit := "KG", code := "1ab" }
      "id2" 0 { ready := [{ id := "id1", name := "x", category := "Home Delivery",
                            item_category := "", code := "1AB", unit := "KG",
                            unit_cost := 0, price := 0, quantity := 0, threshold := 0 }],
                raw := [], purchases := [], sales := [],
                branches := [], seqFile := none }
      (by decide) (by decide) (by decide)).1 (Or.inr (by decide))
    rw [heq]
    rfl

-- ---- C2 ----

/-- C2: for a sale whose product lookup and unit check succeed, a requested
qty exceeding the current quantity is rejected with a validation error and
the state, in particular the ready_products table, is unchanged; otherwise
the sale is accepted, the remaining stock equals old quantity minus qty, is
non-negative, and is what the updated table stores for the matched row. -/
theorem record_sale_stock_check (s : SaleIn) (freshId today : String)
    (st : AppState) (target : ReadyProduct)
    (hcat : s.category ∈ CATEGORIES)
    (hfind : st.ready.find? (matchesSale s) = some target)
    (hunit : s.unit = target.unit) :
    (target.quantity < s.qty →
      add_sale_api s freshId today st = (.error "Not enough stock", st))
    ∧ (s.qty ≤ target.quantity →
      ∃ out st2, add_sale_api s freshId today st = (.ok out, st2)
        ∧ out.remaining_stock = target.quantity - s.qty
        ∧ 0 ≤ out.remaining_stock
        ∧ st2.ready = updateFirst (matchesSale s)
            (fun r => { r with quantity := target.quantity - s.qty }) st.ready) := by
  constructor
  · intro hlt
    simp [add_sale_api, hcat, hfind, hunit, hlt]
  · intro hle
    have hnlt : ¬ target.quantity < s.qty := not_lt.mpr hle
    have hnn : (0 : ℚ) ≤ target.quantity - s.qty := sub_nonneg.mpr hle
    simp [add_sale_api, hcat, hfind, hunit, hnlt, hnn]
    exact ⟨_, _, ⟨rfl, rfl⟩, rfl, hnn, rfl⟩

/-- Witness for C2: the spec scenario, Burger stock 20, sale of 3 accepted
with remaining 17, sale of 20 from stock 17 rejected. -/
theorem record_sale_stock_check_witness :
    ((add_sale_api
        { category := "Home Delivery", item := "Burger", unit := "Pieces",
          qty := 3, discount := 10, order_id := some 7 } "S1" "2026-10-12"
        { ready := [{ id := "B1", name := "Burger", category := "Home Delivery",
                      item_category := "", code := "1HB", unit := "Pieces",
                      unit_cost := 0, price := 100, quantity := 20, threshold := 0 }],
          raw := [], purchases := [], sales := [],
          branches := [], seqFile := none }).1.toOption.map SaleOut.remaining_stock
      = some 17)
    ∧ ((add_sale_api
        { category := "Home Delivery", item := "Burger", unit := "Pieces",
          qty := 20, order_id := some 8 } "S2" "2026-10-12"
        { ready := [{ id := "B1", name := "Burger", category := "Home Delivery",
                      item_category := "", code := "1HB", unit := "Pieces",
                      unit_cost := 0, price := 100, quantity := 17, threshold := 0 }],
          raw := [], purchases := [], sales := [],
          branches := [], seqFile := none }).1
      = .error "Not enough stock") := by
  constructor
  · obtain ⟨out, st2, heq, hrem, _, _⟩ :=
      (record_sale_stock_check
        { category := "Home Delivery", item := "Burger", unit := "Pieces",
          qty := 3, discount := 10, order_id := some 7 } "S1" "2026-10-12"
        { ready := [{ id := "B1", name := "Burger", category := "Home Delivery",
                      item_category := "", code := "1HB", unit := "Pieces",
                      unit_cost := 0, price := 100, quantity := 20, threshold := 0 }],
          raw := [], purchases := [], sales := [],
          branches := [], seqFile := none }
        { id := "B1", name := "Burger", category := "Home Delivery",
          item_category := "", code := "1HB", unit := "Pieces",
          unit_cost := 0, price := 100, quantity := 20, threshold := 0 }
        (by decide) (by decide) (by decide)).2 (by decide)
    rw [heq]
    show some out.remaining_stock = some 17
    rw [hrem]
    norm_num
  · have h :=
      (record_sale_stock_check
        { category := "Home Delivery", item := "Burger", unit := "Pieces",
          qty := 20, order_id := some 8 } "S2" "2026-10-12"
        { ready := [{ id := "B1", name := "Burger", category := "Home Delivery",
                      item_category := "", code := "1HB", unit := "Pieces",
                      unit_cost := 0, price := 100, quantity := 17, threshold := 0 }],
          raw := [], purchases := [], sales := [],
          branches := [], seqFile := none }
        { id := "B1", name := "Burger", category := "Home Delivery",
          item_category := "", code := "1HB", unit := "Pieces",
          unit_cost := 0, price := 100, quantity := 17, threshold := 0 }
        (by decide) (by decide) (by decide)).1 (by decide)
    rw [h]

-- ---- C3 ----

theorem convert_qty_sign {q cq : ℚ} {u v : String}
    (h : convert_qty q u v = .ok cq) (hq : 0 ≤ q) : 0 ≤ cq := by
  unfold convert_qty at h
  split at h
  · cases h; exact hq
  · split at h
    · cases h; positivity
    · split at h
      · cases h; positivity
      · cases h

/-- C3: a valid purchase updates the matched, or newly created, raw-inventory
row to old stock plus the qty converted to the stored unit by convert_qty,
and appends a purchase ledger row carrying the original unconverted qty and
unit with total_cost equal to qty times unit_cost on the unconverted qty. -/
theorem receive_purchase_spec (p : PurchaseIn) (iid rid today : String)
    (st : AppState) (cq : ℚ)
    (hcat : p.category ∈ CATEGORIES) (hsub : p.subcategory ∈ SUBCATEGORIES)
    (hunit : p.unit ∈ UNITS)
    (hconv : convert_qty p.qty p.unit (purchaseTargetUnit p st) = .ok cq) :
    ∃ resp st2, add_purchase_api p iid rid today st = (.ok resp, st2)
      ∧ resp.new_stock = purchaseOldStock p st + cq
      ∧ resp.unit = purchaseTargetUnit p st
      ∧ (∃ item2, item2 ∈ st2.raw ∧ item2.stock = purchaseOldStock p st + cq
          ∧ item2.unit = purchaseTargetUnit p st ∧ item2.unit_cost = p.unit_cost)
      ∧ (∃ prow, st2.purchases = st.purchases ++ [prow]
          ∧ prow.qty = p.qty ∧ prow.unit = p.unit
          ∧ prow.unit_cost = p.unit_cost
          ∧ prow.total_cost = p.qty * p.unit_cost) := by
  cases hfound : st.raw.find? (matchesPurchase p) with
  | some r =>
    have htu : purchaseTargetUnit p st = r.unit := by
      unfold purchaseTargetUnit
      rw [hfound]
    have hos : purchaseOldStock p st = r.stock := by
      unfold purchaseOldStock
      rw [hfound]
    rw [htu] at hconv
    have heq : add_purchase_api p iid rid today st
        = (.ok { ok := true, id := rid, new_stock := r.stock + cq, unit := r.unit },
          { st with
            raw := updateFirst (matchesPurchase p)
              (fun _ => { r with stock := r.stock + cq, unit_cost := p.unit_cost }) st.raw,
            purchases := st.purchases ++
              [{ id := rid, date := p.date.getD today, category := p.category,
                 subcategory := p.subcategory, item := strTrim p.item, unit := p.unit,
                 qty := p.qty, unit_cost := p.unit_cost,
                 total_cost := p.qty * p.unit_cost, notes := p.notes.getD "" }] }) := by
      simp [add_purchase_api, hcat, hsub, hunit, hfound, hconv]
    have hmem : ({ r with stock := r.stock + cq, unit_cost := p.unit_cost } : RawItem)
        ∈ updateFirst (matchesPurchase p)
          (fun _ => { r with stock := r.stock + cq, unit_cost := p.unit_cost }) st.raw :=
      updateFirst_mem hfound
    refine ⟨_, _, heq, by simp [hos], by simp [htu], ⟨_, hmem, by simp [hos], by simp [htu], rfl⟩,
      ⟨_, rfl, rfl, rfl, rfl, rfl⟩⟩
  | none =>
    have htu : purchaseTargetUnit p st = p.unit := by
      unfold purchaseTargetUnit
      rw [hfound]
    have hos : purchaseOldStock p st = 0 := by
      unfold purchaseOldStock
      rw [hfound]
    rw [htu] at hconv
    have heq : add_purchase_api p iid rid today st
        = (.ok { ok := true, id := rid, new_stock := cq, unit := p.unit },
          { st with
            raw := st.raw ++
              [{ id := iid, name := strTrim p.item, category := p.category,
                 subcategory := p.subcategory, unit := p.unit,
                 unit_cost := p.unit_cost, stock := cq, threshold := 0 }],
            purchases := st.purchases ++
              [{ id := rid, date := p.date.getD today, category := p.category,
                 subcategory := p.subcategory, item := strTrim p.item, unit := p.unit,
                 qty := p.qty, unit_cost := p.unit_cost,
                 total_cost := p.qty * p.unit_cost, notes := p.notes.getD "" }] }) := by
      simp [add_purchase_api, hcat, hsub, hunit, hfound, hconv]
    refine ⟨_, _, heq, by simp [hos], by simp [htu], ?_, ⟨_, rfl, rfl, rfl, rfl, rfl⟩⟩
    refine ⟨_, List.mem_append_right _ (List.mem_singleton_self _), by simp [hos], by simp [htu], rfl⟩

/-- Witness for C3: the spec scenario, first Chicken purchase of 10 KG into
an empty store yields stock 10. -/
theorem receive_purchase_spec_witness :
    ((add_purchase_api
        { category := "Frozen Products", subcategory := "Meat and Fish",
          item := "Chicken", unit := "KG", qty := 10, unit_cost := 200 }
        "I1" "P1" "2026-10-12"
        { ready := [], raw := [], purchases := [], sales := [],
          branches := [], seqFile := none }).1.toOption.map
      (fun resp => (resp.new_stock, resp.unit))) = some (10, "KG") := by
  obtain ⟨resp, st2, heq, hstock, hunit, _, _⟩ :=
    receive_purchase_spec
      { category := "Frozen Products", subcategory := "Meat and Fish",
        item := "Chicken", unit := "KG", qty := 10, unit_cost := 200 }
      "I1" "P1" "2026-10-12"
      { ready := [], raw := [], purchases := [], sales := [],
        branches := [], seqFile := none } 10
      (by decide) (by decide) (by decide) rfl
  rw [heq]
  show some (resp.new_stock, resp.unit) = some (10, "KG")
  rw [hstock, hunit]
  norm_num [purchaseOldStock, purchaseTargetUnit, List.find?]

-- ---- C1 ----

theorem adjustLoop_ok_nonneg : ∀ (rows : List ReadyProduct) (item_id : String)
    (delta q : ℚ) (rows2 : List ReadyProduct),
    adjustLoop item_id delta rows = .ok (q, rows2) → 0 ≤ q := by
  intro rows
  induction rows with
  | nil => intro item_id delta q rows2 h; simp [adjustLoop] at h
  | cons r rs ih =>
    intro item_id delta q rows2 h
    unfold adjustLoop at h
    split at h
    · by_cases hneg : r.quantity + delta < 0
      · simp [hneg] at h
      · simp [hneg] at h
        obtain ⟨hq, -⟩ := h
        linarith [not_lt.mp hneg]
    · cases hrec : adjustLoop item_id delta rs with
      | error e => rw [hrec] at h; cases h
      | ok pair =>
        rw [hrec] at h
        simp only [Except.ok.injEq, Prod.mk.injEq] at h
        obtain ⟨hq, -⟩ := h
        subst hq
        exact ih item_id delta pair.1 pair.2 (by rw [hrec])

/-- C1, amended: the committed quantity of a manual stock adjustment and the
remaining quantity of an accepted sale are never negative; an accepted
purchase always sets the stock to old stock plus the converted qty, but the
source checks no sign, so only for purchases with non-negative qty does the
stock not decrease, and only then does it stay non-negative when it was;
a negative purchase qty is accepted and can drive the stock negative. -/
theorem transaction_stock_invariants :
    (∀ (item_id : String) (delta : ℚ) (st : AppState) (q : ℚ) (st2 : AppState),
        adjust_ready_stock_api item_id delta st = (.ok q, st2) → 0 ≤ q)
    ∧ (∀ (s : SaleIn) (freshId today : String) (st : AppState)
          (out : SaleOut) (st2 : AppState),
        add_sale_api s freshId today st = (.ok out, st2) → 0 ≤ out.remaining_stock)
    ∧ (∀ (p : PurchaseIn) (iid rid today : String) (st : AppState)
          (resp : PurchaseResp) (st2 : AppState),
        add_purchase_api p iid rid today st = (.ok resp, st2) →
          (∃ cq, convert_qty p.qty p.unit (purchaseTargetUnit p st) = .ok cq
              ∧ resp.new_stock = purchaseOldStock p st + cq)
          ∧ (0 ≤ p.qty →
              purchaseOldStock p st ≤ resp.new_stock
              ∧ (0 ≤ purchaseOldStock p st → 0 ≤ resp.new_stock))) := by
  refine ⟨?_, ?_, ?_⟩
  · intro item_id delta st q st2 h
    unfold adjust_ready_stock_api at h
    cases hloop : adjustLoop item_id delta st.ready with
    | error e => rw [hloop] at h; cases h
    | ok pair =>
      rw [hloop] at h
      simp only [Prod.mk.injEq, Except.ok.injEq] at h
      obtain ⟨hq, -⟩ := h
      subst hq
      exact adjustLoop_ok_nonneg st.ready item_id delta pair.1 pair.2 (by rw [hloop])
  · intro s freshId today st out st2 h
    by_cases hcat : s.category ∈ CATEGORIES
    · cases hfind : st.ready.find? (matchesSale s) with
      | none => simp [add_sale_api, hcat, hfind] at h
      | some target =>
        by_cases hunit : s.unit = target.unit
        · by_cases hlt : target.quantity < s.qty
          · simp [add_sale_api, hcat, hfind, hunit, hlt] at h
          · simp [add_sale_api, hcat, hfind, hunit, hlt] at h
            obtain ⟨hout, -⟩ := h
            subst hout
            exact sub_nonneg.mpr (not_lt.mp hlt)
        · simp [add_sale_api, hcat, hfind, hunit] at h
    · simp [add_sale_api, hcat] at h
  · intro p iid rid today st resp st2 h
    by_cases hcat : p.category ∈ CATEGORIES
    swap
    · simp [add_purchase_api, hcat] at h
    by_cases hsub : p.subcategory ∈ SUBCATEGORIES
    swap
    · simp [add_purchase_api, hcat, hsub] at h
    by_cases hunit : p.unit ∈ UNITS
    swap
    · simp [add_purchase_api, hcat, hsub, hunit] at h
    cases hfound : st.raw.find? (matchesPurchase p) with
    | some r =>
      have htu : purchaseTargetUnit p st = r.unit := by
        unfold purchaseTargetUnit
        rw [hfound]
      have hos : purchaseOldStock p st = r.stock := by
        unfold purchaseOldStock
        rw [hfound]
      cases hconv : convert_qty p.qty p.unit r.unit with
      | error e => simp [add_purchase_api, hcat, hsub, hunit, hfound, hconv] at h
      | ok cq =>
        simp [add_purchase_api, hcat, hsub, hunit, hfound, hconv] at h
        obtain ⟨hresp, -⟩ := h
        subst hresp
        refine ⟨⟨cq, by rw [htu]; exact hconv, by simp [hos]⟩, ?_⟩
        intro hq
        have hcq : 0 ≤ cq := convert_qty_sign hconv hq
        constructor
        · simp [hos]
          linarith
        · intro hold
          simp [hos] at hold ⊢
          linarith
    | none =>
      have htu : purchaseTargetUnit p st = p.unit := by
        unfold purchaseTargetUnit
        rw [hfound]
      have hos : purchaseOldStock p st = 0 := by
        unfold purchaseOldStock
        rw [hfound]
      cases hconv : convert_qty p.qty p.unit p.unit with
      | error e =>
        unfold convert_qty at hconv
        simp at hconv
      | ok cq =>
        have hcqq : cq = p.qty := by
          unfold convert_qty at hconv
          simp at hconv
          exact hconv.symm
        simp [add_purchase_api, hcat, hsub, hunit, hfound, hconv] at h
        obtain ⟨hresp, -⟩ := h
        subst hresp
        refine ⟨⟨cq, by rw [htu]; exact hconv, by simp [hos]⟩, ?_⟩
        intro hq
        subst hcqq
        constructor
        · simp [hos]
          linarith
        · intro hold
          simp [hos]
          linarith

/-- C1 counterexample: a purchase with negative qty commits and drives the
newly created inventory stock to a negative value, strictly below the old
stock of zero. -/
theorem transaction_stock_counterexample :
    ((add_purchase_api
        { category := "Home Delivery", subcategory := "Meat and Fish",
          item := "Chicken", unit := "KG", qty := -1, unit_cost := 5 }
        "I1" "P1" "2026-10-12"
        { ready := [], raw := [], purchases := [], sales := [],
          branches := [], seqFile := none }).1.toOption.map PurchaseResp.new_stock
      = some (-1))
    ∧ ((-1 : ℚ) < 0) := by
  constructor
  · norm_num [add_purchase_api, convert_qty, CATEGORIES, SUBCATEGORIES, UNITS]
    exact ⟨_, rfl, rfl⟩
  · norm_num

/-- Witness for C1 at a concrete adjustment bringing the stock exactly to
zero. -/
theorem transaction_stock_invariants_witness :
    adjust_ready_stock_api "B1" (-3)
        { ready := [{ id := "B1", name := "Burger", category := "Home Delivery",
                      item_category := "", code := "", unit := "Pieces",
                      unit_cost := 0, price := 100, quantity := 3, threshold := 0 }],
          raw := [], purchases := [], sales := [], branches := [], seqFile := none }
      = (.ok 0,
        { ready := [{ id := "B1", name := "Burger", category := "Home Delivery",
                      item_category := "", code := "", unit := "Pieces",
                      unit_cost := 0, price := 100, quantity := 0, threshold := 0 }],
          raw := [], purchases := [], sales := [], branches := [], seqFile := none })
    ∧ (0 : ℚ) ≤ 0 := by
  have heq : adjust_ready_stock_api "B1" (-3)
      { ready := [{ id := "B1", name := "Burger", category := "Home Delivery",
                    item_category := "", code := "", unit := "Pieces",
                    unit_cost := 0, price := 100, quantity := 3, threshold := 0 }],
        raw := [], purchases := [], sales := [], branches := [], seqFile := none }
      = (.ok 0,
        { ready := [{ id := "B1", name := "Burger", category := "Home Delivery",
                      item_category := "", code := "", unit := "Pieces",
                      unit_cost := 0, price := 100, quantity := 0, threshold := 0 }],
          raw := [], purchases := [], sales := [], branches := [], seqFile := none }) := by
    norm_num [adjust_ready_stock_api, adjustLoop]
  exact ⟨heq, transaction_stock_invariants.1 "B1" (-3) _ 0 _ heq⟩

-- ---- C8 ----

/-- C8, amended: add_sale_api performs no payment_status validation at all:
every accepted sale appends a ledger row whose payment_status is the supplied
string unchanged, with only an empty string replaced by Live, even when the
value is outside the enumeration Live, Due, Paid; the enumeration is only
enforced by the separate update_sale_payment endpoint. -/
theorem sale_payment_status_unchecked (s : SaleIn) (freshId today : String)
    (st : AppState) (out : SaleOut) (st2 : AppState)
    (h : add_sale_api s freshId today st = (.ok out, st2)) :
    ∃ row, st2.sales = st.sales ++ [row]
      ∧ row.payment_status
          = (if s.payment_status = "" then "Live" else s.payment_status) := by
  by_cases hcat : s.category ∈ CATEGORIES
  · cases hfind : st.ready.find? (matchesSale s) with
    | none => simp [add_sale_api, hcat, hfind] at h
    | some target =>
      by_cases hunit : s.unit = target.unit
      · by_cases hlt : target.quantity < s.qty
        · simp [add_sale_api, hcat, hfind, hunit, hlt] at h
        · simp only [add_sale_api, hcat, hfind, hunit, hlt] at h
          simp at h
          obtain ⟨-, hst⟩ := h
          exact ⟨_, by rw [← hst], rfl⟩
      · simp [add_sale_api, hcat, hfind, hunit] at h
  · simp [add_sale_api, hcat] at h

/-- C8 counterexample: a sale with payment_status Bogus, outside the
enumeration, is accepted and its ledger row stores Bogus. -/
theorem sale_payment_status_counterexample :
    ((add_sale_api
        { category := "Home Delivery", item := "Burger", unit := "Pieces",
          qty := 1, order_id := some 7, payment_status := "Bogus" }
        "S1" "2026-10-12"
        { ready := [{ id := "B1", name := "Burger", category := "Home Delivery",
                      item_category := "", code := "1HB", unit := "Pieces",
                      unit_cost := 0, price := 100, quantity := 20, threshold := 0 }],
          raw := [], purchases := [], sales := [],
          branches := [], seqFile := none }).1.toOption.isSome = true)
    ∧ ((add_sale_api
        { category := "Home Delivery", item := "Burger", unit := "Pieces",
          qty := 1, order_id := some 7, payment_status := "Bogus" }
        "S1" "2026-10-12"
        { ready := [{ id := "B1", name := "Burger", category := "Home Delivery",
                      item_category := "", code := "1HB", unit := "Pieces",
                      unit_cost := 0, price := 100, quantity := 20, threshold := 0 }],
          raw := [], purchases := [], sales := [],
          branches := [], seqFile := none }).2.sales.map SaleRow.payment_status
      = ["Bogus"])
    ∧ ("Bogus" ∉ PAYMENT_STATUSES) := by
  refine ⟨by decide, by decide, by decide⟩

/-- Witness for C8: an accepted sale with the valid status Paid stores Paid. -/
theorem sale_payment_status_unchecked_witness :
    (add_sale_api
        { category := "Home Delivery", item := "Burger", unit := "Pieces",
          qty := 1, order_id := some 7, payment_status := "Paid" }
        "S1" "2026-10-12"
        { ready := [{ id := "B1", name := "Burger", category := "Home Delivery",
                      item_category := "", code := "1HB", unit := "Pieces",
                      unit_cost := 0, price := 100, quantity := 20, threshold := 0 }],
          raw := [], purchases := [], sales := [],
          branches := [], seqFile := none }).2.sales.map SaleRow.payment_status
      = ["Paid"] := by
  rcases hres : add_sale_api
      { category := "Home Delivery", item := "Burger", unit := "Pieces",
        qty := 1, order_id := some 7, payment_status := "Paid" }
      "S1" "2026-10-12"
      { ready := [{ id := "B1", name := "Burger", category := "Home Delivery",
                    item_category := "", code := "1HB", unit := "Pieces",
                    unit_cost := 0, price := 100, quantity := 20, threshold := 0 }],
        raw := [], purchases := [], sales := [],
        branches := [], seqFile := none } with ⟨res, st2⟩
  cases res with
  | error e =>
    have hsome : (add_sale_api
        { category := "Home Delivery", item := "Burger", unit := "Pieces",
          qty := 1, order_id := some 7, payment_status := "Paid" }
        "S1" "2026-10-12"
        { ready := [{ id := "B1", name := "Burger", category := "Home Delivery",
                      item_category := "", code := "1HB", unit := "Pieces",
                      unit_cost := 0, price := 100, quantity := 20, threshold := 0 }],
          raw := [], purchases := [], sales := [],
          branches := [], seqFile := none }).1.toOption.isSome = true := by decide
    rw [hres] at hsome
    simp [Except.toOption] at hsome
  | ok out =>
    obtain ⟨row, hrow, hps⟩ := sale_payment_status_unchecked _ _ _ _ out st2 hres
    show st2.sales.map SaleRow.payment_status = ["Paid"]
    rw [hrow]
    simp [hps]

-- ---- C4 ----

theorem foldl_init_extends (hs : List (String × List String)) :
    ∀ acc : Dir, ∃ e, hs.foldl
        (fun acc kv =>
          if acc.any (fun f => f.1 == kv.1) then acc else acc ++ [(kv.1, [kv.2])]) acc
      = acc ++ e := by
  induction hs with
  | nil => intro acc; exact ⟨[], by simp⟩
  | cons kv hs ih =>
    intro acc
    rw [List.foldl_cons]
    by_cases hx : acc.any (fun f => f.1 == kv.1) = true
    · rw [if_pos hx]
      exact ih acc
    · rw [if_neg hx]
      obtain ⟨e, he⟩ := ih (acc ++ [(kv.1, [kv.2])])
      exact ⟨[(kv.1, [kv.2])] ++ e, by rw [he, List.append_assoc]⟩

theorem init_csvs_extends (d : Dir) : ∃ e, _init_csvs d = d ++ e :=
  foldl_init_extends HEADERS d

theorem latest_aux : ∀ (root : DataRoot) (acc : Option (String × Dir)) (a : String × Dir),
    root.foldl
      (fun acc d =>
        match acc with
        | none => some d
        | some a0 => if strLe a0.1 d.1 then some d else some a0) acc = some a →
    (acc = some a ∨ a ∈ root)
    ∧ (∀ b ∈ root, strLe b.1 a.1 = true)
    ∧ (∀ c, acc = some c → strLe c.1 a.1 = true) := by
  intro root
  induction root with
  | nil =>
    intro acc a h
    rw [List.foldl_nil] at h
    refine ⟨Or.inl h, by simp, ?_⟩
    intro c hc
    rw [h] at hc
    cases hc
    exact strLe_refl _
  | cons d root ih =>
    intro acc a h
    rw [List.foldl_cons] at h
    cases acc with
    | none =>
      obtain ⟨hmem, hall, hup⟩ := ih (some d) a h
      have hda : strLe d.1 a.1 = true := hup d rfl
      refine ⟨?_, ?_, ?_⟩
      · rcases hmem with h0 | h0
        · cases h0; exact Or.inr (List.mem_cons_self _ _)
        · exact Or.inr (List.mem_cons_of_mem _ h0)
      · intro b hb
        rcases List.mem_cons.mp hb with rfl | hb2
        · exact hda
        · exact hall b hb2
      · intro c hc
        cases hc
    | some a0 =>
      replace h : List.foldl
          (fun acc d =>
            match acc with
            | none => some d
            | some a0 => if strLe a0.1 d.1 then some d else some a0)
          (if strLe a0.1 d.1 then some d else some a0) root = some a := h
      by_cases hle : strLe a0.1 d.1 = true
      · rw [if_pos hle] at h
        obtain ⟨hmem, hall, hup⟩ := ih (some d) a h
        have hda : strLe d.1 a.1 = true := hup d rfl
        refine ⟨?_, ?_, ?_⟩
        · rcases hmem with h0 | h0
          · cases h0; exact Or.inr (List.mem_cons_self _ _)
          · exact Or.inr (List.mem_cons_of_mem _ h0)
        · intro b hb
          rcases List.mem_cons.mp hb with rfl | hb2
          · exact hda
          · exact hall b hb2
        · intro c hc
          cases hc
          exact strLe_trans hle hda
      · rw [if_neg hle] at h
        obtain ⟨hmem, hall, hup⟩ := ih (some a0) a h
        have ha0 : strLe a0.1 a.1 = true := hup a0 rfl
        have hda0 : strLe d.1 a0.1 = true := by
          rcases strLe_total a0.1 d.1 with h0 | h0
          · exact absurd h0 hle
          · exact h0
        refine ⟨?_, ?_, ?_⟩
        · rcases hmem with h0 | h0
          · exact Or.inl h0
          · exact Or.inr (List.mem_cons_of_mem _ h0)
        · intro b hb
          rcases List.mem_cons.mp hb with rfl | hb2
          · exact strLe_trans hda0 ha0
          · exact hall b hb2
        · intro c hc
          cases hc
          exact ha0

theorem latestDay_spec (root : DataRoot) (a : String × Dir)
    (h : _latest_existing_day_dir root = some a) :
    a ∈ root ∧ ∀ b ∈ root, strLe b.1 a.1 = true := by
  obtain ⟨hmem, hall, -⟩ := latest_aux root none a h
  rcases hmem with h0 | h0
  · cases h0
  · exact ⟨h0, hall⟩

/-- C4: resolving the active snapshot on a date with no existing snapshot
copies the entire latest (lexicographically maximal name) snapshot into the
new directory for that date: the new directory is the old one plus possibly
some header-only files for missing tables, so every file, hence every row of
every table, of the prior snapshot appears unchanged in it; when no prior
snapshot exists, the new directory holds exactly the header-only tables. -/
theorem resolve_snapshot_carry_forward (today : String) (root : DataRoot)
    (hnone : root.find? (fun d => d.1 == today) = none) :
    (∀ latest, _latest_existing_day_dir root = some latest →
      latest ∈ root
      ∧ (∀ b ∈ root, strLe b.1 latest.1 = true)
      ∧ ∃ extra, (get_today_dir today root).2 = latest.2 ++ extra
          ∧ (get_today_dir today root).1 = root ++ [(today, latest.2 ++ extra)]
          ∧ ∀ f ∈ latest.2, f ∈ (get_today_dir today root).2)
    ∧ (root = [] →
      (get_today_dir today root).2 = HEADERS.map (fun kv => (kv.1, [kv.2]))
      ∧ (get_today_dir today root).1
          = [(today, HEADERS.map (fun kv => (kv.1, [kv.2])))]) := by
  constructor
  · intro latest hl
    obtain ⟨hmem, hall⟩ := latestDay_spec root latest hl
    have hne : latest.1 ≠ today := by
      have := List.find?_eq_none.mp hnone latest hmem
      simpa using this
    obtain ⟨extra, hext⟩ := init_csvs_extends latest.2
    have hgt : get_today_dir today root
        = (root ++ [(today, latest.2 ++ extra)], latest.2 ++ extra) := by
      simp only [get_today_dir, hnone, hl]
      rw [if_pos hne, hext]
    refine ⟨hmem, hall, extra, by rw [hgt], by rw [hgt], ?_⟩
    intro f hf
    rw [hgt]
    exact List.mem_append_left _ hf
  · intro hroot
    subst hroot
    exact ⟨rfl, rfl⟩

/-- Witness for C4 at a concrete one-day store. -/
theorem resolve_snapshot_carry_forward_witness :
    ("sales", [["id"], ["r1"]])
      ∈ (get_today_dir "2026-10-12"
          [("2026-10-10", [("sales", [["id"], ["r1"]])])]).2 := by
  obtain ⟨-, -, extra, -, -, hmem⟩ :=
    (resolve_snapshot_carry_forward "2026-10-12"
        [("2026-10-10", [("sales", [["id"], ["r1"]])])] (by decide)).1
      ("2026-10-10", [("sales", [["id"], ["r1"]])]) (by decide)
  exact hmem _ (by decide)

end TBM
